import Mathlib

/-!
Shallow embedding of the CI/CD dashboard alerting engine
(backend services: the alert evaluator / notification dispatcher in
`githubService.js`'s alert section, the Jenkins client in
`socketService.js`'s Jenkins section, and the alerts router's test
endpoint), together with theorems settling the specification claims.

Timestamps are modelled as `Int` milliseconds since the epoch, matching
JavaScript `Date.getTime()`.  JavaScript `Math.round` on non-negative
ratios of naturals is modelled by `jsRoundNat`.
-/

namespace CICD

/-- JavaScript `Math.round (a / b)` for naturals `a`, `b` with `b > 0`:
`floor (a / b + 1 / 2)`, computed as a natural-number division. -/
def jsRoundNat (a b : Nat) : Nat := (2 * a + b) / (2 * b)

/-- Spec-side rounding of a rational to a natural: `⌊x + 1/2⌋₊`. -/
def specRound (x : ℚ) : ℕ := ⌊x + 1 / 2⌋₊

/-! ## Alert scheduler (`startAlertScheduler`)

```js
let scheduled = null;
function startAlertScheduler() {
  if (scheduled) return;
  const spec = process.env.ALERT_CRON || '*/2 * * * *';
  try {
    scheduled = cron.schedule(spec, ...);
    ...
  } catch (e) { logger.error('Failed to start alert scheduler', e); }
}
```
The module-level `scheduled` variable is the state; `cron.schedule` may
throw (modelled by the `cronOk` flag), in which case the catch leaves
`scheduled` null. -/

/-- The module-level state of the scheduler: the registered cron task,
if any (carrying the cron spec it was registered with). -/
structure SchedState where
  scheduled : Option String
deriving Repr, DecidableEq

/-- One call to `startAlertScheduler`.  `cronOk` models whether
`cron.schedule` succeeds (it may throw on a bad spec; the catch logs and
leaves the state unchanged).  Returns the new state and whether this call
registered a schedule. -/
def startAlertScheduler (cronOk : Bool) (cronSpec : String) (st : SchedState) :
    SchedState × Bool :=
  match st.scheduled with
  | some _ => (st, false)
  | none => if cronOk then ({ scheduled := some cronSpec }, true) else (st, false)

/-- Run a sequence of calls to `startAlertScheduler` (each element gives
that call's `cronOk` outcome), returning the final state and how many
calls registered a schedule. -/
def runSchedulerCalls (cronSpec : String) : SchedState → List Bool → SchedState × Nat
  | st, [] => (st, 0)
  | st, ok :: rest =>
      let (st', created) := startAlertScheduler ok cronSpec st
      let (stF, n) := runSchedulerCalls cronSpec st' rest
      (stF, (if created then 1 else 0) + n)

/-! ## Jenkins job-tree flattening (`flattenJobs` / `getJobs`)

```js
async function flattenJobs(basePath = '', prefix = '', override) {
  const items = await listJobsAt(basePath, override);
  const jobs = [];
  for (const j of items) {
    const isFolder = j._class && j._class.includes('Folder');
    const displayName = prefix ? `${prefix}/${j.name}` : j.name;
    if (isFolder) {
      const folderPath = ...;
      const nested = await flattenJobs(folderPath, displayName, override);
      jobs.push(...nested);
    } else {
      jobs.push(normalizeJob({ name: displayName, url: j.url, color: j.color }, ...));
    }
  }
  return jobs;
}
```
The remote Jenkins instance is modelled as a forest of nodes: a node
whose `_class` includes `Folder` with its children, or a plain job.
`basePath` only selects which folder the HTTP request lists, so it is
represented by recursing into the node's children; `normalizeJob`'s URL
origin rewriting is irrelevant to the flattening claims and the `url` and
`color` fields are carried through unchanged. -/

/-- A node of the Jenkins job tree as the `api/json?tree=jobs[...]`
listing exposes it: either a folder (its `_class` includes `Folder`) with
children, or a leaf job. -/
inductive JTree where
  | job (name : String) (url : String) (color : String) : JTree
  | folder (name : String) (children : List JTree) : JTree
deriving Repr

/-- The entry `flattenJobs` pushes for a leaf (the fields of
`normalizeJob`'s result that do not involve URL rewriting). -/
structure NormJob where
  name : String
  url : String
  color : String
deriving Repr, DecidableEq

/-- Code: `displayName = prefix ? `${prefix}/${j.name}` : j.name`. -/
def displayName (pre name : String) : String :=
  if pre = "" then name else pre ++ "/" ++ name

/-- Code: `flattenJobs`: walk the listed items in order; descend into folders
with the composite display name as the new prefix; push leaf jobs. -/
def flattenJobs (pre : String) : List JTree → List NormJob
  | [] => []
  | JTree.job n u c :: rest =>
      { name := displayName pre n, url := u, color := c } :: flattenJobs pre rest
  | JTree.folder n children :: rest =>
      flattenJobs (displayName pre n) children ++ flattenJobs pre rest

/-- Code: `getJobs`: flatten the root listing with an empty prefix. -/
def getJobs (root : List JTree) : List NormJob :=
  flattenJobs "" root

/-- Spec-side description: the `/`-joined composite paths of exactly the
non-folder leaves of the forest, in listing order. -/
def leafPaths : List JTree → List String
  | [] => []
  | JTree.job n _ _ :: rest => n :: leafPaths rest
  | JTree.folder n children :: rest =>
      (leafPaths children).map (fun m => n ++ "/" ++ m) ++ leafPaths rest

/-- Well-formedness of the forest: every folder has a non-empty name
(Jenkins folder names are never empty). -/
def wfForest : List JTree → Prop
  | [] => True
  | JTree.job _ _ _ :: rest => wfForest rest
  | JTree.folder n children :: rest => n ≠ "" ∧ wfForest children ∧ wfForest rest

/-! ## ASCII string helpers

JavaScript's `toUpperCase` / `toLowerCase` / `split` / `replace` are
modelled by structurally recursive functions over the string's
character list (every value they touch in this codebase is ASCII). -/

/-- ASCII upper-casing of one character. -/
def charToUpper (c : Char) : Char :=
  if 'a' ≤ c ∧ c ≤ 'z' then Char.ofNat (c.toNat - 32) else c

/-- ASCII lower-casing of one character. -/
def charToLower (c : Char) : Char :=
  if 'A' ≤ c ∧ c ≤ 'Z' then Char.ofNat (c.toNat + 32) else c

/-- Code: `s.toUpperCase()` (ASCII). -/
def strToUpper (s : String) : String := ⟨s.data.map charToUpper⟩

/-- Code: `s.toLowerCase()` (ASCII). -/
def strToLower (s : String) : String := ⟨s.data.map charToLower⟩

/-! ## Alerting data model

Mirrors the alert section of the backend services file: `AlertHistory`
rows, alert `conditions` / `channels` JSON, and the provider-integration
rows the evaluators load. -/

/-- A row of the `alertHistory` table as `recordHistory` creates it
(`sentAt` defaults to the insertion time). -/
structure HistEntry where
  alertId : String
  status : String
  message : String
  sentAt : Int
deriving Repr, DecidableEq

/-- Code: `alreadySentRecently(alertId, message, minutes)`: count history rows
with the same `(alertId, message)` and `sentAt >= now - minutes*60*1000`,
and report whether the count is positive. -/
def alreadySentRecently (hist : List HistEntry) (now : Int)
    (alertId message : String) (minutes : Int) : Bool :=
  let since := now - minutes * 60 * 1000
  decide (0 < hist.countP fun e =>
    e.alertId == alertId && e.message == message && decide (since ≤ e.sentAt))

/-- JavaScript truthiness for an optional string: `undefined` and `''`
are falsy. -/
def truthyStr (o : Option String) : Option String :=
  match o with
  | some s => if s = "" then none else some s
  | none => none

/-- The alert `conditions` JSON object (absent keys are `none`). -/
structure Conditions where
  event : Option String
  jenkinsJob : Option String
  job : Option String
  recentMinutes : Option Int
  provider : Option String
  jenkinsProviderId : Option String
  githubProviderId : Option String
  githubWorkflowId : Option String
  workflowId : Option String
deriving Repr, DecidableEq

/-- Code: `conditions` object with every key absent (JS `{}`). -/
def emptyConditions : Conditions :=
  ⟨none, none, none, none, none, none, none, none, none⟩

/-- Code: `String(cond.event || 'FAILURE').toUpperCase()`. -/
def condEvent (c : Conditions) : String :=
  (match truthyStr c.event with
   | none => "FAILURE"
   | some s => s) |> strToUpper

/-- Code: `Number(cond.recentMinutes || 180)`: the time-window (and, as passed
to `alreadySentRecently`, dedup-lookback) minutes; a missing or zero
value falls back to 180. -/
def recentOf (c : Conditions) : Int :=
  match c.recentMinutes with
  | none => 180
  | some v => if v = 0 then 180 else v

/-- Code: `cond.jenkinsJob || cond.job` under JS truthiness. -/
def onlyJobOf (c : Conditions) : Option String :=
  match truthyStr c.jenkinsJob with
  | some s => some s
  | none => truthyStr c.job

/-- Code: `if (cond.xProviderId) where.id = cond.xProviderId`: a truthy
selector restricts the integration id, otherwise all ids match. -/
def idMatches (sel : Option String) (id : String) : Bool :=
  match truthyStr sel with
  | none => true
  | some s => id == s

/-- The `email` channel config: `{ to: "a@b.com,c@d.com" }`.
`toAddr` is the object's `to` key (a Lean keyword). -/
structure EmailChannelCfg where
  toAddr : String
deriving Repr, DecidableEq

/-- The `slack` channel config: `{ webhookUrl: "https://..." }`. -/
structure SlackChannelCfg where
  webhookUrl : String
deriving Repr, DecidableEq

/-- The alert `channels` JSON object. -/
structure Channels where
  email : Option EmailChannelCfg
  slack : Option SlackChannelCfg
deriving Repr, DecidableEq

/-- Code: `channels` object with no channel configured (JS `{}`). -/
def emptyChannels : Channels := ⟨none, none⟩

/-- An `alert` row.  `alertType` is the row's `type` column (a Lean
keyword). -/
structure Alert where
  id : String
  alertType : String
  conditions : Option Conditions
  channels : Option Channels
  isActive : Bool
deriving Repr, DecidableEq

/-- A notification payload `{title, text, link}` handed to
`dispatchChannels`. -/
structure Payload where
  title : String
  text : String
  link : Option String
deriving Repr, DecidableEq

/-- One call to `dispatchChannels` made by an evaluator: which alert it
was for and the payload it carried. -/
structure DispatchRec where
  alertId : String
  payload : Payload
deriving Repr, DecidableEq

/-! ## Jenkins evaluation (`evaluateJenkins`) -/

/-- A Jenkins build as `normalizeBuild` returns it (`result` is `null`
while the build is running; `timestamp` is epoch milliseconds). -/
structure JBuild where
  number : Nat
  result : Option String
  timestamp : Option Int
  duration : Int
  url : Option String
deriving Repr, DecidableEq

/-- Code: `String(last.result || '').toUpperCase()`. -/
def jenkinsResultStr (b : JBuild) : String :=
  strToUpper (b.result.getD "")

/-- The event-match predicate of `evaluateJenkins`:
`completed = !!result`, `isFailure = result === 'FAILURE'`,
`isSuccess = result === 'SUCCESS'`. -/
def jenkinsMatches (event : String) (b : JBuild) : Bool :=
  let result := jenkinsResultStr b
  let completed := result != ""
  let isFailure := result == "FAILURE"
  let isSuccess := result == "SUCCESS"
  (event == "FAILURE" && isFailure) || (event == "SUCCESS" && isSuccess) ||
    (event == "COMPLETED" && completed)

/-- The outcome word embedded in the Jenkins message:
`isFailure ? 'failed' : isSuccess ? 'succeeded' : (result || 'completed')`. -/
def jenkinsOutcomeWord (b : JBuild) : String :=
  let result := jenkinsResultStr b
  if result == "FAILURE" then "failed"
  else if result == "SUCCESS" then "succeeded"
  else if result == "" then "completed" else result

/-- Code: `` `[Jenkins] ${j.name} #${last.number} ${...}` `` — the dedup
fingerprint for a Jenkins notification. -/
def jenkinsMessage (jobName : String) (b : JBuild) : String :=
  "[Jenkins] " ++ jobName ++ " #" ++ toString b.number ++ " " ++ jenkinsOutcomeWord b

/-- The payload `evaluateJenkins` passes to `dispatchChannels`. -/
def jenkinsPayload (jobName : String) (b : JBuild) (lastTs : Int) : Payload :=
  let result := jenkinsResultStr b
  { title := "Build " ++
      (if result == "FAILURE" then "Failure"
       else if result == "SUCCESS" then "Success" else "Completed") ++ " (Jenkins)",
    text := jenkinsMessage jobName b ++ "\nDuration: " ++ toString b.duration ++
      "ms\nWhen: " ++ toString lastTs,
    link := b.url }

/-- The body of `evaluateJenkins`'s inner loop for one job whose last
build was fetched: time-window filter, event match, dedup guard, then
one `dispatchChannels` call followed by one `recordHistory` insert. -/
def processJenkinsBuild (now : Int) (alertId event : String) (recent : Int)
    (jobName : String) (b : JBuild) (hist : List HistEntry) :
    List DispatchRec × List HistEntry :=
  let lastTs := b.timestamp.getD now
  let cutoff := now - recent * 60 * 1000
  if lastTs < cutoff then ([], hist)
  else if !jenkinsMatches event b then ([], hist)
  else
    let message := jenkinsMessage jobName b
    if alreadySentRecently hist now alertId message recent then ([], hist)
    else ([⟨alertId, jenkinsPayload jobName b lastTs⟩],
          hist ++ [⟨alertId, "SENT", message, now⟩])

/-- A Jenkins job together with the result `getLastBuild` would return
for it (`none` when the fetch fails or there is no build, which the
per-job `catch` turns into `last = null`). -/
structure JJobInfo where
  name : String
  lastBuild : Option JBuild
deriving Repr, DecidableEq

/-- A `jenkinsIntegration` row together with the jobs its server
exposes. -/
structure JenkinsCfg where
  id : String
  active : Bool
  jobs : List JJobInfo
deriving Repr, DecidableEq

/-- Code: `onlyJob ? [{ name: onlyJob }] : await getJobs(override)`: the
`(name, last build)` pairs the inner loop visits for one integration. -/
def jenkinsJobsFor (cfg : JenkinsCfg) (onlyJob : Option String) :
    List (String × Option JBuild) :=
  match onlyJob with
  | some n => [(n, ((cfg.jobs.find? fun j => j.name == n).bind fun j => j.lastBuild))]
  | none => cfg.jobs.map fun j => (j.name, j.lastBuild)

/-- The inner loop of `evaluateJenkins` over the jobs of one
integration, threading the history state. -/
def evalJenkinsJobs (now : Int) (alertId event : String) (recent : Int) :
    List (String × Option JBuild) → List HistEntry →
    List DispatchRec × List HistEntry
  | [], hist => ([], hist)
  | (_, none) :: rest, hist => evalJenkinsJobs now alertId event recent rest hist
  | (name, some b) :: rest, hist =>
      let p := processJenkinsBuild now alertId event recent name b hist
      let q := evalJenkinsJobs now alertId event recent rest p.2
      (p.1 ++ q.1, q.2)

/-- The loop of `evaluateJenkins` over the active (and optionally
id-selected) Jenkins integrations.  Also counts provider-API calls: one
`getJobs` when no single job is configured, plus one `getLastBuild` per
visited job. -/
def evalJenkinsCfgs (now : Int) (alertId event : String) (recent : Int)
    (onlyJob : Option String) :
    List JenkinsCfg → List HistEntry →
    Nat × List DispatchRec × List HistEntry
  | [], hist => (0, [], hist)
  | cfg :: rest, hist =>
      let jobs := jenkinsJobsFor cfg onlyJob
      let calls := (match onlyJob with | none => 1 | some _ => 0) + jobs.length
      let p := evalJenkinsJobs now alertId event recent jobs hist
      let q := evalJenkinsCfgs now alertId event recent onlyJob rest p.2
      (calls + q.1, p.1 ++ q.2.1, q.2.2)

/-- Code: `evaluateJenkins(alert)`: derive the condition parameters, select
the active integrations, and run the loops.  Returns (provider calls,
dispatch calls, new history). -/
def evaluateJenkins (now : Int) (world : List JenkinsCfg) (alert : Alert)
    (hist : List HistEntry) : Nat × List DispatchRec × List HistEntry :=
  let c := alert.conditions.getD emptyConditions
  let cfgs := world.filter fun cfg =>
    cfg.active && idMatches c.jenkinsProviderId cfg.id
  evalJenkinsCfgs now alert.id (condEvent c) (recentOf c) (onlyJobOf c) cfgs hist

/-! ## GitHub evaluation (`evaluateGitHub`) -/

/-- A GitHub workflow run as `listWorkflowRuns` returns it (timestamps
as epoch milliseconds; a missing or empty date string is `none`). -/
structure GRun where
  run_number : Nat
  status : Option String
  conclusion : Option String
  run_started_at : Option Int
  updated_at : Option Int
  created_at : Option Int
  head_branch : Option String
  html_url : Option String
deriving Repr, DecidableEq

/-- Code: `new Date(r.run_started_at || r.updated_at || r.created_at)`: the
first present timestamp, `none` when all are missing (an invalid date,
which the `isNaN` guard skips). -/
def ghRunTs (r : GRun) : Option Int :=
  match r.run_started_at with
  | some t => some t
  | none =>
      match r.updated_at with
      | some t => some t
      | none => r.created_at

/-- Code: `String(r.status || '').toLowerCase()`. -/
def ghStatusStr (r : GRun) : String := strToLower (r.status.getD "")

/-- Code: `String(r.conclusion || '').toUpperCase()`. -/
def ghConclusionStr (r : GRun) : String := strToUpper (r.conclusion.getD "")

/-- The event-match predicate of `evaluateGitHub`:
`completed = status === 'completed'`,
`isFailure = completed && conclusion === 'FAILURE'`,
`isSuccess = completed && conclusion === 'SUCCESS'`. -/
def ghMatches (event : String) (r : GRun) : Bool :=
  let completed := ghStatusStr r == "completed"
  let isFailure := completed && ghConclusionStr r == "FAILURE"
  let isSuccess := completed && ghConclusionStr r == "SUCCESS"
  (event == "FAILURE" && isFailure) || (event == "SUCCESS" && isSuccess) ||
    (event == "COMPLETED" && completed)

/-- Code: `isFailure ? 'failed' : isSuccess ? 'succeeded' : (conclusion || status)`. -/
def ghOutcomeWord (r : GRun) : String :=
  let completed := ghStatusStr r == "completed"
  if completed && ghConclusionStr r == "FAILURE" then "failed"
  else if completed && ghConclusionStr r == "SUCCESS" then "succeeded"
  else if ghConclusionStr r == "" then ghStatusStr r else ghConclusionStr r

/-- Code: `` `[GitHub] ${cfg.owner}/${cfg.repo} run #${r.run_number} ${...}` `` —
the dedup fingerprint for a GitHub notification. -/
def ghMessage (owner repo : String) (r : GRun) : String :=
  "[GitHub] " ++ owner ++ "/" ++ repo ++ " run #" ++ toString r.run_number ++
    " " ++ ghOutcomeWord r

/-- The payload `evaluateGitHub` passes to `dispatchChannels`
(an absent `head_branch` renders as JS `undefined`). -/
def ghPayload (owner repo : String) (r : GRun) (runTs : Int) : Payload :=
  let completed := ghStatusStr r == "completed"
  { title := "Build " ++
      (if completed && ghConclusionStr r == "FAILURE" then "Failure"
       else if completed && ghConclusionStr r == "SUCCESS" then "Success"
       else "Completed") ++ " (GitHub)",
    text := ghMessage owner repo r ++ "\nBranch: " ++
      (match r.head_branch with | some br => br | none => "undefined") ++
      "\nWhen: " ++ toString runTs,
    link := r.html_url }

/-- The body of `evaluateGitHub` for the latest run of one integration:
timestamp validity and time-window filter, event match, dedup guard,
then one `dispatchChannels` call followed by one `recordHistory`
insert. -/
def processGitHubRun (now : Int) (alertId owner repo event : String)
    (recent : Int) (r : GRun) (hist : List HistEntry) :
    List DispatchRec × List HistEntry :=
  match ghRunTs r with
  | none => ([], hist)
  | some runTs =>
      let cutoff := now - recent * 60 * 1000
      if runTs < cutoff then ([], hist)
      else if !ghMatches event r then ([], hist)
      else
        let message := ghMessage owner repo r
        if alreadySentRecently hist now alertId message recent then ([], hist)
        else ([⟨alertId, ghPayload owner repo r runTs⟩],
              hist ++ [⟨alertId, "SENT", message, now⟩])

/-- A `gitHubIntegration` row together with the workflow runs
`listWorkflowRuns` returns for it under the alert's fetch parameters
(newest first; the evaluator only looks at the head). -/
structure GitHubCfg where
  id : String
  active : Bool
  owner : String
  repo : String
  runs : List GRun
deriving Repr, DecidableEq

/-- The loop of `evaluateGitHub` over the active (and optionally
id-selected) GitHub integrations; one `listWorkflowRuns` call each, and
only the latest run is considered. -/
def evalGitHubCfgs (now : Int) (alertId event : String) (recent : Int) :
    List GitHubCfg → List HistEntry →
    Nat × List DispatchRec × List HistEntry
  | [], hist => (0, [], hist)
  | cfg :: rest, hist =>
      let p := match cfg.runs with
        | [] => ([], hist)
        | r :: _ => processGitHubRun now alertId cfg.owner cfg.repo event recent r hist
      let q := evalGitHubCfgs now alertId event recent rest p.2
      (1 + q.1, p.1 ++ q.2.1, q.2.2)

/-- Code: `evaluateGitHub(alert)`. -/
def evaluateGitHub (now : Int) (world : List GitHubCfg) (alert : Alert)
    (hist : List HistEntry) : Nat × List DispatchRec × List HistEntry :=
  let c := alert.conditions.getD emptyConditions
  let cfgs := world.filter fun cfg =>
    cfg.active && idMatches c.githubProviderId cfg.id
  evalGitHubCfgs now alert.id (condEvent c) (recentOf c) cfgs hist

/-! ## The evaluation pass (`evaluateAndSendAlerts`) -/

/-- What one alert contributed to a pass. -/
structure AlertResult where
  providerCalls : Nat
  dispatches : List DispatchRec
deriving Repr, DecidableEq

/-- The per-alert body of `evaluateAndSendAlerts`: the type gate, then
the provider routing (`''` means both providers). -/
def evalAlert (now : Int) (jworld : List JenkinsCfg) (gworld : List GitHubCfg)
    (alert : Alert) (hist : List HistEntry) : AlertResult × List HistEntry :=
  let c := alert.conditions.getD emptyConditions
  let provider := strToLower (c.provider.getD "")
  if alert.alertType == "BUILD_FAILURE" || alert.alertType == "CUSTOM" ||
      alert.alertType == "PERFORMANCE_DEGRADATION" then
    let jen := if provider == "" || provider == "jenkins"
      then evaluateJenkins now jworld alert hist else (0, [], hist)
    let gh := if provider == "" || provider == "github"
      then evaluateGitHub now gworld alert jen.2.2 else (0, [], jen.2.2)
    (⟨jen.1 + gh.1, jen.2.1 ++ gh.2.1⟩, gh.2.2)
  else (⟨0, []⟩, hist)

/-- The loop of `evaluateAndSendAlerts` over the fetched alerts,
threading the history state (a dispatch for an earlier alert is visible
to a later alert's dedup query in the same pass). -/
def evalAlertsLoop (now : Int) (jworld : List JenkinsCfg)
    (gworld : List GitHubCfg) :
    List Alert → List HistEntry →
    List (Alert × AlertResult) × List HistEntry
  | [], hist => ([], hist)
  | a :: rest, hist =>
      let p := evalAlert now jworld gworld a hist
      let q := evalAlertsLoop now jworld gworld rest p.2
      ((a, p.1) :: q.1, q.2)

/-- Code: `evaluateAndSendAlerts()`: fetch
`prisma.alert.findMany({ where: { isActive: true } })` and evaluate each
result. -/
def evaluateAndSendAlerts (now : Int) (jworld : List JenkinsCfg)
    (gworld : List GitHubCfg) (alerts : List Alert) (hist : List HistEntry) :
    List (Alert × AlertResult) × List HistEntry :=
  evalAlertsLoop now jworld gworld (alerts.filter fun a => a.isActive) hist

/-! ## Notification dispatch (`dispatchChannels`, `sendEmail`, `sendSlack`)

The dispatcher builds one independently `.catch`-protected promise per
configured channel and awaits them all, so a rejection in one channel is
logged and never aborts the other or escapes the dispatcher.  The
environment records whether SMTP is configured and whether the
underlying transports resolve or reject. -/

/-- Recipient domains blocked by `sanitizeRecipients`. -/
def BLOCKED_DOMAINS : List String := [".local", ".test"]

/-- Recipient addresses blocked by `sanitizeRecipients`. -/
def BLOCKED_ADDRESSES : List String := ["dev@local.test"]

/-- The test `/^[^@\s]+@[^@\s]+\.[^@\s]+$/.test(a)`: no whitespace,
exactly one `@` which is not first, and a `.` strictly inside the part
after the `@`. -/
def emailRegexTest (a : String) : Bool :=
  let cs := a.data
  cs.all (fun ch => !ch.isWhitespace) &&
  (cs.count '@' == 1) &&
  decide (0 < (cs.takeWhile fun ch => ch != '@').length) &&
  ((((cs.dropWhile fun ch => ch != '@').drop 1).drop 1).dropLast.contains '.')

/-- The separator class `[;,\s]` of `sanitizeRecipients`' split. -/
def isRecipientSep (c : Char) : Bool := c == ';' || c == ',' || c.isWhitespace

/-- Split a character list at each separator character (empty pieces
appear between adjacent separators and at the ends, exactly as a
single-character split would produce; the caller filters them out). -/
def splitSepAux (p : Char → Bool) : List Char → List Char → List String
  | [], acc => [String.mk acc.reverse]
  | c :: rest, acc =>
      if p c then String.mk acc.reverse :: splitSepAux p rest []
      else splitSepAux p rest (c :: acc)

/-- Code: `raw.split(/[;,\s]+/)` up to empty pieces: splitting on single
separator characters; together with the `filter (· ≠ "")` below this
yields exactly the maximal separator-free substrings, as the regex split
plus `trim`/`filter(Boolean)` does. -/
def splitOnSeps (s : String) : List String :=
  splitSepAux isRecipientSep s.data []

/-- Code: `sanitizeRecipients(input)`: split on runs of `[;,\s]`, drop empty
pieces, and keep the addresses whose lowercase form passes the email
regex and is neither a blocked address nor in a blocked domain. -/
def sanitizeRecipients (input : String) : List String :=
  let parts := (splitOnSeps input).filter fun s => s ≠ ""
  parts.filter fun addr =>
    let a := strToLower addr
    emailRegexTest a && !(BLOCKED_ADDRESSES.contains a) &&
      !(BLOCKED_DOMAINS.any fun d => d.data.isSuffixOf a.data)

/-- The transport environment: the `SMTP_HOST` env var, whether
`transporter.sendMail` resolves, and whether the Slack webhook POST
resolves. -/
structure NotifyEnv where
  smtpHost : Option String
  smtpSendOk : Bool
  slackPostOk : Bool
deriving Repr, DecidableEq

/-- The `{ ok, reason? }` result both senders resolve with. -/
structure SendRes where
  ok : Bool
  reason : Option String
deriving Repr, DecidableEq

/-- Code: `sendEmail`: without a configured SMTP host the mailer is `null` and
the send is skipped with a warning (`ok: false`); otherwise the mail is
sent, and a transport rejection is an `Except.error`. -/
def sendEmail (env : NotifyEnv) (toList subject text html : String) :
    Except String SendRes :=
  match truthyStr env.smtpHost with
  | none => Except.ok ⟨false, some "smtp_not_configured"⟩
  | some _ =>
      let _ := (toList, subject, text, html)
      if env.smtpSendOk then Except.ok ⟨true, none⟩
      else Except.error "sendMail rejected"

/-- Code: `sendSlack`: a missing webhook URL is skipped with a warning
(`ok: false`); otherwise the POST is made, and a rejection is an
`Except.error`. -/
def sendSlack (env : NotifyEnv) (webhookUrl text : String) :
    Except String SendRes :=
  if webhookUrl = "" then Except.ok ⟨false, some "slack_webhook_missing"⟩
  else
    let _ := text
    if env.slackPostOk then Except.ok ⟨true, none⟩
    else Except.error "axios post rejected"

/-- What happened on the email channel of one `dispatchChannels` call. -/
inductive EmailOutcome where
  | notAttempted
  | skippedNoRecipients
  | smtpNotConfigured
  | sent (toList : String)
  | sendFailedLogged
deriving Repr, DecidableEq

/-- What happened on the Slack channel of one `dispatchChannels` call. -/
inductive SlackOutcome where
  | notAttempted
  | webhookMissing
  | sent (text : String)
  | sendFailedLogged
deriving Repr, DecidableEq

/-- Code: `` `${payload.text}${payload.link ? `\nLink: ${payload.link}` : ''}` ``. -/
def emailBodyText (p : Payload) : String :=
  p.text ++ (match p.link with | some l => "\nLink: " ++ l | none => "")

/-- The HTML body: the text with `\n` replaced by `<br/>`, plus an
anchor when a link is present. -/
def emailBodyHtml (p : Payload) : String :=
  "<p>" ++ String.mk (p.text.data.flatMap fun c =>
    if c = '\n' then "<br/>".data else [c]) ++ "</p>" ++
    (match p.link with
     | some l => "<p><a href=\"" ++ l ++ "\">Open</a></p>"
     | none => "")

/-- The Slack message text built by `dispatchChannels`. -/
def slackText (p : Payload) : String :=
  "*" ++ p.title ++ "*\n" ++ p.text ++
    (match p.link with | some l => "\n<" ++ l ++ "|Open>" | none => "")

/-- The email branch of `dispatchChannels`: entered only when
`channels.email?.to` is truthy; an empty sanitized recipient list is
skipped with a warning; the send promise's `.catch` logs a rejection. -/
def emailDispatch (env : NotifyEnv) (channels : Option Channels) (p : Payload) :
    EmailOutcome :=
  match (channels.getD emptyChannels).email with
  | none => EmailOutcome.notAttempted
  | some ec =>
      if ec.toAddr = "" then EmailOutcome.notAttempted
      else
        let recips := sanitizeRecipients ec.toAddr
        if recips.isEmpty then EmailOutcome.skippedNoRecipients
        else
          let toList := String.intercalate "," recips
          match sendEmail env toList ("[CI/CD] " ++ p.title)
              (emailBodyText p) (emailBodyHtml p) with
          | Except.ok res =>
              if res.ok then EmailOutcome.sent toList
              else EmailOutcome.smtpNotConfigured
          | Except.error _ => EmailOutcome.sendFailedLogged

/-- The Slack branch of `dispatchChannels`: entered only when
`channels.slack?.webhookUrl` is truthy; the send promise's `.catch` logs
a rejection. -/
def slackDispatch (env : NotifyEnv) (channels : Option Channels) (p : Payload) :
    SlackOutcome :=
  match (channels.getD emptyChannels).slack with
  | none => SlackOutcome.notAttempted
  | some sc =>
      if sc.webhookUrl = "" then SlackOutcome.notAttempted
      else
        match sendSlack env sc.webhookUrl (slackText p) with
        | Except.ok res =>
            if res.ok then SlackOutcome.sent (slackText p)
            else SlackOutcome.webhookMissing
        | Except.error _ => SlackOutcome.sendFailedLogged

/-- Code: `dispatchChannels(alert, payload)` (the alert's id only feeds
logging): both channel branches run under their own `.catch`, so the
awaited `Promise.all` never rejects — the result is always `Except.ok`. -/
def dispatchChannels (env : NotifyEnv) (channels : Option Channels)
    (p : Payload) : Except String (EmailOutcome × SlackOutcome) :=
  Except.ok (emailDispatch env channels p, slackDispatch env channels p)

/-- The `/alerts/test` route body:
`dispatchChannels({ id: 'test', channels }, { title, text })` with no
condition evaluation, no dedup query, and no history write; the history
state is returned untouched. -/
def sendTestNotification (env : NotifyEnv) (channels : Channels)
    (title text : String) (hist : List HistEntry) :
    Except String (EmailOutcome × SlackOutcome) × List HistEntry :=
  (dispatchChannels env (some channels) ⟨title, text, none⟩, hist)

/-! ## Per-workflow summary statistics (`workflowsSummary`)

The stats block computes, over the fetched runs of one workflow
(`per_page: 10` on the primary fetch path): success rate as
`Math.round((successes / completed.length) * 100)` over the completed
runs, and average duration as `Math.round` of the mean of the positive
per-run rounded second durations. -/

/-- The per-run duration in seconds:
`s && e && e > s ? Math.round((e - s) / 1000) : 0` with
`s = new Date(run_started_at).getTime()` (0 when absent) and
`e = new Date(updated_at).getTime()` (0 when absent). -/
def runDurationSec (r : GRun) : Nat :=
  let s := r.run_started_at.getD 0
  let e := r.updated_at.getD 0
  if s ≠ 0 ∧ e ≠ 0 ∧ s < e then jsRoundNat (e - s).toNat 1000 else 0

/-- The stats block of `workflowsSummary` for one workflow's fetched
runs: `(successRate, avgDurationSec)`. -/
def workflowStats (runs : List GRun) : Nat × Nat :=
  let completed := runs.filter fun r => r.status == some "completed"
  if completed.length = 0 then (0, 0)
  else
    let successes :=
      (completed.filter fun r => strToLower (r.conclusion.getD "") == "success").length
    let successRate := jsRoundNat (100 * successes) completed.length
    let durations := (completed.map runDurationSec).filter fun n => decide (0 < n)
    let avg := if durations.length = 0 then 0
      else jsRoundNat durations.sum durations.length
    (successRate, avg)

/-- One workflow's summary entry on the primary fetch path, which
requests the most recent runs with `per_page: 10`. -/
def workflowSummaryStats (fetched : List GRun) : Nat × Nat :=
  workflowStats (fetched.take 10)

/-! ## Spec-side outcome predicates (for the event-semantics claim) -/

/-- A Jenkins build has a terminal outcome: its `result` is set. -/
def jenkinsTerminalOutcome (b : JBuild) : Bool := jenkinsResultStr b != ""

/-- A Jenkins build ended in the failing terminal outcome. -/
def jenkinsFailingOutcome (b : JBuild) : Bool := jenkinsResultStr b == "FAILURE"

/-- A Jenkins build ended in the successful terminal outcome. -/
def jenkinsSuccessfulOutcome (b : JBuild) : Bool := jenkinsResultStr b == "SUCCESS"

/-- A GitHub run has a terminal outcome: its status is `completed`. -/
def ghTerminalOutcome (r : GRun) : Bool := ghStatusStr r == "completed"

/-- A GitHub run ended in the failing terminal outcome. -/
def ghFailingOutcome (r : GRun) : Bool :=
  ghTerminalOutcome r && ghConclusionStr r == "FAILURE"

/-- A GitHub run ended in the successful terminal outcome. -/
def ghSuccessfulOutcome (r : GRun) : Bool :=
  ghTerminalOutcome r && ghConclusionStr r == "SUCCESS"

/-! ## Theorems -/

/-- Code: `jsRoundNat` agrees with the spec's "round of the ratio". -/
theorem jsRoundNat_eq_specRound (a b : Nat) (hb : 0 < b) :
    jsRoundNat a b = specRound ((a : ℚ) / b) := by
  have hb' : (b : ℚ) ≠ 0 := Nat.cast_ne_zero.mpr hb.ne'
  have h2b : (0 : ℚ) < 2 * b := by positivity
  have key : (a : ℚ) / b + 1 / 2 = ((2 * a + b : ℕ) : ℚ) / ((2 * b : ℕ) : ℚ) := by
    push_cast
    field_simp
    ring
  unfold jsRoundNat specRound
  rw [key, Nat.floor_div_nat]
  rw [Nat.floor_natCast]

lemma runSchedulerCalls_le (cronSpec : String) (calls : List Bool) :
    ∀ st : SchedState, (runSchedulerCalls cronSpec st calls).2 ≤
      (match st.scheduled with | some _ => 0 | none => 1) := by
  induction calls with
  | nil => intro st; simp [runSchedulerCalls]
  | cons ok rest ih =>
      intro st
      obtain ⟨sched⟩ := st
      cases sched with
      | some s =>
          have h := ih ⟨some s⟩
          simpa [runSchedulerCalls, startAlertScheduler] using h
      | none =>
          cases ok with
          | true =>
              have h := ih ⟨some cronSpec⟩
              simp [runSchedulerCalls, startAlertScheduler] at h ⊢
              omega
          | false =>
              have h := ih ⟨none⟩
              simpa [runSchedulerCalls, startAlertScheduler] using h

/-- C10: `startAlertScheduler` is idempotent: over any sequence of calls
starting from the module's initial `scheduled = null` state, at most one
cron schedule is ever registered, and once a schedule exists every later
call returns immediately without creating another schedule or altering
the existing one. -/
theorem startAlertScheduler_idempotent :
    (∀ (cronSpec : String) (calls : List Bool),
        (runSchedulerCalls cronSpec ⟨none⟩ calls).2 ≤ 1) ∧
    (∀ (ok : Bool) (cronSpec s : String) (st : SchedState),
        st.scheduled = some s →
        startAlertScheduler ok cronSpec st = (st, false)) := by
  constructor
  · intro cronSpec calls
    simpa using runSchedulerCalls_le cronSpec calls ⟨none⟩
  · intro ok cronSpec s st hst
    simp [startAlertScheduler, hst]

/-- Witness for C10 at a concrete call sequence and a concrete already
scheduled state. -/
theorem startAlertScheduler_idempotent_witness :
    (runSchedulerCalls "*/2 * * * *" ⟨none⟩ [false, true, true]).2 ≤ 1 ∧
    startAlertScheduler true "*/2 * * * *" ⟨some "*/2 * * * *"⟩ =
      (⟨some "*/2 * * * *"⟩, false) :=
  ⟨startAlertScheduler_idempotent.1 "*/2 * * * *" [false, true, true],
   startAlertScheduler_idempotent.2 true "*/2 * * * *" "*/2 * * * *"
     ⟨some "*/2 * * * *"⟩ rfl⟩

/-- C9: the test-notification route invokes the dispatcher with exactly
the supplied channels, title and text, leaves every history state
unchanged, and its dispatch result does not depend on the history state
(so no dedup query is performed). -/
theorem test_notification_bypasses_history :
    ∀ (env : NotifyEnv) (ch : Channels) (title text : String)
      (h1 h2 : List HistEntry),
      (sendTestNotification env ch title text h1).2 = h1 ∧
      (sendTestNotification env ch title text h1).1 =
        dispatchChannels env (some ch) ⟨title, text, none⟩ ∧
      (sendTestNotification env ch title text h1).1 =
        (sendTestNotification env ch title text h2).1 := by
  intro env ch title text h1 h2
  exact ⟨rfl, rfl, rfl⟩

lemma displayName_assoc (pre n m : String) (hn : n ≠ "") :
    displayName (displayName pre n) m = displayName pre (n ++ "/" ++ m) := by
  unfold displayName
  by_cases hp : pre = ""
  · simp [hp, hn]
  · have hne : pre ++ "/" ++ n ≠ "" := by
      intro hcontra
      apply hp
      have : (pre ++ "/" ++ n).data = ([] : List Char) := by rw [hcontra]
      simp [String.data_append] at this
    simp only [if_neg hp, if_neg hne]
    have : (pre ++ "/" ++ n) ++ "/" ++ m = pre ++ "/" ++ (n ++ "/" ++ m) := by
      apply String.ext
      simp [String.data_append]
    rw [this]

lemma flatten_names : ∀ (ts : List JTree) (pre : String), wfForest ts →
    (flattenJobs pre ts).map NormJob.name = (leafPaths ts).map (displayName pre)
  | [], _, _ => by simp [flattenJobs, leafPaths]
  | JTree.job n u c :: rest, pre, h => by
      have h' : wfForest rest := by simpa [wfForest] using h
      have ih := flatten_names rest pre h'
      simp [flattenJobs, leafPaths, ih]
  | JTree.folder n children :: rest, pre, h => by
      have h' : n ≠ "" ∧ wfForest children ∧ wfForest rest := by
        simpa [wfForest] using h
      have hn : n ≠ "" := h'.1
      have ihc := flatten_names children (displayName pre n) h'.2.1
      have ihr := flatten_names rest pre h'.2.2
      simp only [flattenJobs, leafPaths, List.map_append, ihc, ihr, List.map_map]
      congr 1
      apply List.map_congr_left
      intro m _
      exact displayName_assoc pre n m hn

/-- C7: `getJobs` (via `flattenJobs`) returns exactly the non-folder
leaves of the job forest named by their `/`-joined composite paths, with
no folder-only entries; on the two-level tree with `A/B/job1` and
`A/job2` the result is exactly those two composite names. -/
theorem listTargets_flattens_leaves :
    (∀ ts : List JTree, wfForest ts →
        (getJobs ts).map NormJob.name = leafPaths ts) ∧
    getJobs [JTree.folder "A" [JTree.folder "B" [JTree.job "job1" "u1" "blue"],
        JTree.job "job2" "u2" "red"]] =
      [⟨"A/B/job1", "u1", "blue"⟩, ⟨"A/job2", "u2", "red"⟩] := by
  constructor
  · intro ts h
    have hmain := flatten_names ts "" h
    have hfun : displayName "" = id := funext fun m => by simp [displayName]
    have hid : (leafPaths ts).map (displayName "") = leafPaths ts := by
      rw [hfun, List.map_id]
    rw [getJobs, hmain, hid]
  · simp [getJobs, flattenJobs, displayName]

/-- Witness for C7 at the spec's concrete two-level folder tree. -/
theorem listTargets_flattens_leaves_witness :
    (getJobs [JTree.folder "A" [JTree.folder "B" [JTree.job "job1" "u1" "blue"],
        JTree.job "job2" "u2" "red"]]).map NormJob.name =
      leafPaths [JTree.folder "A" [JTree.folder "B" [JTree.job "job1" "u1" "blue"],
        JTree.job "job2" "u2" "red"]] :=
  listTargets_flattens_leaves.1 _ (by
    simp only [wfForest]
    exact ⟨by decide, ⟨by decide, trivial, trivial⟩, trivial⟩)

/-- C6: channel deliveries are independent and isolated: the dispatcher
never raises (its awaited promises are all `.catch`-protected); the
Slack outcome depends only on the Slack channel config and the Slack
transport, never on the email side; an email channel whose sanitized
recipient list is empty is skipped with a warning outcome rather than an
error; and a configured Slack webhook with a working transport receives
the payload's message regardless of the email channel's state. -/
theorem dispatch_channel_isolation :
    (∀ (env : NotifyEnv) (ch : Option Channels) (p : Payload),
        ∃ o, dispatchChannels env ch p = Except.ok o) ∧
    (∀ (env env' : NotifyEnv) (ch ch' : Option Channels) (p : Payload),
        (ch.getD emptyChannels).slack = (ch'.getD emptyChannels).slack →
        env.slackPostOk = env'.slackPostOk →
        slackDispatch env ch p = slackDispatch env' ch' p) ∧
    (∀ (env : NotifyEnv) (ch : Option Channels) (p : Payload)
        (ec : EmailChannelCfg),
        (ch.getD emptyChannels).email = some ec → ec.toAddr ≠ "" →
        sanitizeRecipients ec.toAddr = [] →
        emailDispatch env ch p = EmailOutcome.skippedNoRecipients) ∧
    (∀ (env : NotifyEnv) (ch : Option Channels) (p : Payload)
        (sc : SlackChannelCfg),
        (ch.getD emptyChannels).slack = some sc → sc.webhookUrl ≠ "" →
        env.slackPostOk = true →
        slackDispatch env ch p = SlackOutcome.sent (slackText p)) := by
  refine ⟨?_, ?_, ?_, ?_⟩
  · intro env ch p
    exact ⟨_, rfl⟩
  · intro env env' ch ch' p hsl hok
    unfold slackDispatch sendSlack
    rw [hsl, hok]
  · intro env ch p ec hec hto hsan
    unfold emailDispatch
    rw [hec]
    simp [hto, hsan]
  · intro env ch p sc hsc hurl hok
    unfold slackDispatch sendSlack
    rw [hsc]
    simp [hurl, hok]

/-- Witness for C6: SMTP unconfigured and the only recipient blocked,
yet the Slack webhook still receives the message, the email channel is
skipped with a warning, and the dispatcher returns without error. -/
theorem dispatch_channel_isolation_witness :
    (∃ o, dispatchChannels ⟨none, false, true⟩
        (some ⟨some ⟨"dev@local.test"⟩, some ⟨"https://hooks.example/T"⟩⟩)
        ⟨"T", "B", none⟩ = Except.ok o) ∧
    emailDispatch ⟨none, false, true⟩
        (some ⟨some ⟨"dev@local.test"⟩, some ⟨"https://hooks.example/T"⟩⟩)
        ⟨"T", "B", none⟩ = EmailOutcome.skippedNoRecipients ∧
    slackDispatch ⟨none, false, true⟩
        (some ⟨some ⟨"dev@local.test"⟩, some ⟨"https://hooks.example/T"⟩⟩)
        ⟨"T", "B", none⟩ = SlackOutcome.sent (slackText ⟨"T", "B", none⟩) :=
  ⟨dispatch_channel_isolation.1 _ _ _,
   dispatch_channel_isolation.2.2.1 _ _ _ ⟨"dev@local.test"⟩ rfl (by decide)
     (by decide),
   dispatch_channel_isolation.2.2.2 _ _ _ ⟨"https://hooks.example/T"⟩ rfl
     (by decide) rfl⟩

lemma evalAlertsLoop_mem (now : Int) (jworld : List JenkinsCfg)
    (gworld : List GitHubCfg) :
    ∀ (alerts : List Alert) (hist : List HistEntry)
      (p : Alert × AlertResult),
      p ∈ (evalAlertsLoop now jworld gworld alerts hist).1 → p.1 ∈ alerts := by
  intro alerts
  induction alerts with
  | nil => intro hist p hp; simp [evalAlertsLoop] at hp
  | cons a rest ih =>
      intro hist p hp
      simp only [evalAlertsLoop, List.mem_cons] at hp
      rcases hp with hp | hp
      · subst hp; simp
      · exact List.mem_cons_of_mem a (ih _ p hp)

/-- C2: an evaluation pass only evaluates alerts with `isActive = true`
(the pass fetches `findMany({ where: { isActive: true } })`), so every
per-alert contribution in a pass belongs to an active alert, and
removing the inactive alerts from the store does not change the pass at
all — inactive alerts produce zero provider calls, zero dispatch
attempts, and no history entries. -/
theorem inactive_alerts_not_evaluated :
    (∀ (now : Int) (jworld : List JenkinsCfg) (gworld : List GitHubCfg)
        (alerts : List Alert) (hist : List HistEntry)
        (p : Alert × AlertResult),
        p ∈ (evaluateAndSendAlerts now jworld gworld alerts hist).1 →
        p.1.isActive = true) ∧
    (∀ (now : Int) (jworld : List JenkinsCfg) (gworld : List GitHubCfg)
        (alerts : List Alert) (hist : List HistEntry),
        evaluateAndSendAlerts now jworld gworld alerts hist =
          evaluateAndSendAlerts now jworld gworld
            (alerts.filter fun a => a.isActive) hist) := by
  constructor
  · intro now jworld gworld alerts hist p hp
    have hmem := evalAlertsLoop_mem now jworld gworld _ _ p hp
    exact (List.mem_filter.mp hmem).2
  · intro now jworld gworld alerts hist
    unfold evaluateAndSendAlerts
    rw [List.filter_filter]
    simp

/-- Witness for C2: a pass over one active and one inactive alert; the
single evaluated entry is the active one. -/
theorem inactive_alerts_not_evaluated_witness :
    (⟨⟨"a1", "BUILD_FAILURE", none, none, true⟩, ⟨0, []⟩⟩ :
        Alert × AlertResult).1.isActive = true :=
  inactive_alerts_not_evaluated.1 0 [] []
    [⟨"a1", "BUILD_FAILURE", none, none, true⟩,
     ⟨"a2", "BUILD_FAILURE", none, none, false⟩] []
    ⟨⟨"a1", "BUILD_FAILURE", none, none, true⟩, ⟨0, []⟩⟩ (by decide)

/-- C1: for a run inside the time window that matches the configured
event, the evaluator performs exactly one dispatch attempt and records
exactly one history entry — unless an identical `(alertId, message)`
history row lies within the dedup window, in which case it performs zero
dispatch attempts and writes nothing.  Stated for the per-run step of
both evaluators. -/
theorem dispatch_once_unless_deduped :
    (∀ (now : Int) (alertId event : String) (recent : Int) (jobName : String)
        (b : JBuild) (hist : List HistEntry),
        now - recent * 60 * 1000 ≤ b.timestamp.getD now →
        b.timestamp.getD now ≤ now →
        jenkinsMatches event b = true →
        ((alreadySentRecently hist now alertId (jenkinsMessage jobName b) recent = true →
            processJenkinsBuild now alertId event recent jobName b hist = ([], hist)) ∧
         (alreadySentRecently hist now alertId (jenkinsMessage jobName b) recent = false →
            processJenkinsBuild now alertId event recent jobName b hist =
              ([⟨alertId, jenkinsPayload jobName b (b.timestamp.getD now)⟩],
               hist ++ [⟨alertId, "SENT", jenkinsMessage jobName b, now⟩])))) ∧
    (∀ (now : Int) (alertId owner repo event : String) (recent : Int)
        (r : GRun) (hist : List HistEntry) (ts : Int),
        ghRunTs r = some ts →
        now - recent * 60 * 1000 ≤ ts → ts ≤ now →
        ghMatches event r = true →
        ((alreadySentRecently hist now alertId (ghMessage owner repo r) recent = true →
            processGitHubRun now alertId owner repo event recent r hist = ([], hist)) ∧
         (alreadySentRecently hist now alertId (ghMessage owner repo r) recent = false →
            processGitHubRun now alertId owner repo event recent r hist =
              ([⟨alertId, ghPayload owner repo r ts⟩],
               hist ++ [⟨alertId, "SENT", ghMessage owner repo r, now⟩])))) := by
  constructor
  · intro now alertId event recent jobName b hist hwin _hub hm
    have hcut : ¬ (b.timestamp.getD now < now - recent * 60 * 1000) :=
      not_lt.mpr hwin
    constructor <;> intro hd <;> simp [processJenkinsBuild, hcut, hm, hd]
  · intro now alertId owner repo event recent r hist ts hts hwin _hub hm
    have hcut : ¬ (ts < now - recent * 60 * 1000) := not_lt.mpr hwin
    constructor <;> intro hd <;> simp [processGitHubRun, hts, hcut, hm, hd]

/-- Witness for C1: a fresh failing build inside the window with empty
history yields exactly one dispatch and one history row. -/
theorem dispatch_once_unless_deduped_witness :
    processJenkinsBuild 0 "a" "FAILURE" 180 "j"
        ⟨1, some "FAILURE", some 0, 5, none⟩ [] =
      ([⟨"a", jenkinsPayload "j" ⟨1, some "FAILURE", some 0, 5, none⟩ 0⟩],
       [⟨"a", "SENT", jenkinsMessage "j" ⟨1, some "FAILURE", some 0, 5, none⟩, 0⟩]) :=
  (dispatch_once_unless_deduped.1 0 "a" "FAILURE" 180 "j"
      ⟨1, some "FAILURE", some 0, 5, none⟩ []
      (by decide) (by decide) (by decide)).2 (by decide)

/-- C4: event semantics of the match predicates: `FAILURE` matches
exactly the terminal failing outcomes, `SUCCESS` exactly the terminal
successful outcomes, `COMPLETED` exactly the terminal outcomes of any
kind (aborted, unstable, ...), and a non-terminal (still running) run
matches no event — for both providers. -/
theorem event_match_semantics :
    (∀ b : JBuild, jenkinsMatches "FAILURE" b =
        (jenkinsTerminalOutcome b && jenkinsFailingOutcome b)) ∧
    (∀ b : JBuild, jenkinsMatches "SUCCESS" b =
        (jenkinsTerminalOutcome b && jenkinsSuccessfulOutcome b)) ∧
    (∀ b : JBuild, jenkinsMatches "COMPLETED" b = jenkinsTerminalOutcome b) ∧
    (∀ (event : String) (b : JBuild),
        jenkinsTerminalOutcome b = false → jenkinsMatches event b = false) ∧
    (∀ r : GRun, ghMatches "FAILURE" r = ghFailingOutcome r) ∧
    (∀ r : GRun, ghMatches "SUCCESS" r = ghSuccessfulOutcome r) ∧
    (∀ r : GRun, ghMatches "COMPLETED" r = ghTerminalOutcome r) ∧
    (∀ (event : String) (r : GRun),
        ghTerminalOutcome r = false → ghMatches event r = false) := by
  have eFS : (("FAILURE" : String) == "SUCCESS") = false := by decide
  have eFC : (("FAILURE" : String) == "COMPLETED") = false := by decide
  have eSF : (("SUCCESS" : String) == "FAILURE") = false := by decide
  have eSC : (("SUCCESS" : String) == "COMPLETED") = false := by decide
  have eCF : (("COMPLETED" : String) == "FAILURE") = false := by decide
  have eCS : (("COMPLETED" : String) == "SUCCESS") = false := by decide
  refine ⟨?_, ?_, ?_, ?_, ?_, ?_, ?_, ?_⟩
  · intro b
    simp only [jenkinsMatches, jenkinsTerminalOutcome, jenkinsFailingOutcome,
      jenkinsSuccessfulOutcome, eFS, eFC]
    by_cases h : jenkinsResultStr b = "FAILURE"
    · rw [h]; decide
    · have hb : (jenkinsResultStr b == "FAILURE") = false :=
        beq_eq_false_iff_ne.mpr h
      simp [hb]
  · intro b
    simp only [jenkinsMatches, jenkinsTerminalOutcome, jenkinsFailingOutcome,
      jenkinsSuccessfulOutcome, eSF, eSC]
    by_cases h : jenkinsResultStr b = "SUCCESS"
    · rw [h]; decide
    · have hb : (jenkinsResultStr b == "SUCCESS") = false :=
        beq_eq_false_iff_ne.mpr h
      simp [hb]
  · intro b
    simp [jenkinsMatches, jenkinsTerminalOutcome, eCF, eCS]
  · intro event b h
    have hs : jenkinsResultStr b = "" := by
      simpa [jenkinsTerminalOutcome] using h
    have h1 : (("" : String) == "FAILURE") = false := by decide
    have h2 : (("" : String) == "SUCCESS") = false := by decide
    have h3 : (("" : String) != "") = false := by decide
    simp [jenkinsMatches, hs, h1, h2, h3]
  · intro r
    simp [ghMatches, ghFailingOutcome, ghTerminalOutcome, eFS, eFC]
  · intro r
    simp [ghMatches, ghSuccessfulOutcome, ghTerminalOutcome, eSF, eSC]
  · intro r
    simp [ghMatches, ghTerminalOutcome, eCF, eCS]
  · intro event r h
    have hs : (ghStatusStr r == "completed") = false := by
      simpa [ghTerminalOutcome] using h
    simp [ghMatches, hs]

/-- Witness for C4: an aborted Jenkins build matches `COMPLETED` (any
terminal outcome), a still-running Jenkins build matches no event, and
a queued GitHub run matches no event. -/
theorem event_match_semantics_witness :
    jenkinsMatches "COMPLETED" ⟨3, some "ABORTED", some 0, 1, none⟩ =
      jenkinsTerminalOutcome ⟨3, some "ABORTED", some 0, 1, none⟩ ∧
    jenkinsMatches "FAILURE" ⟨4, none, some 0, 1, none⟩ = false ∧
    ghMatches "COMPLETED" ⟨9, some "queued", none, some 0, none, none, none, none⟩ =
      false :=
  ⟨event_match_semantics.2.2.1 ⟨3, some "ABORTED", some 0, 1, none⟩,
   event_match_semantics.2.2.2.1 "FAILURE" ⟨4, none, some 0, 1, none⟩ (by decide),
   event_match_semantics.2.2.2.2.2.2.2 "COMPLETED"
     ⟨9, some "queued", none, some 0, none, none, none, none⟩ (by decide)⟩

/-- C3 counterexample: the time-window filter has no upper bound.  A
failing build stamped one hour in the future lies outside the claimed
closed interval `[now − recentMinutes, now]` (its timestamp exceeds
`now`), yet the evaluator performs one dispatch attempt for it. -/
theorem window_upper_bound_cex :
    ((1700003600000 : Int) > 1700000000000) ∧
    (processJenkinsBuild 1700000000000 "a1" "FAILURE" 180 "job"
        ⟨7, some "FAILURE", some 1700003600000, 1000, none⟩ []).1.length = 1 := by
  decide

/-- C3 (amended): the filter enforces only the lower bound — a run whose
timestamp is older than `now − recentMinutes` produces no dispatch
attempt and no history write, even if its outcome matches; timestamps
later than `now` are not rejected. -/
theorem window_filter_lower_bound :
    (∀ (now : Int) (alertId event : String) (recent : Int) (jobName : String)
        (b : JBuild) (hist : List HistEntry),
        b.timestamp.getD now < now - recent * 60 * 1000 →
        processJenkinsBuild now alertId event recent jobName b hist = ([], hist)) ∧
    (∀ (now : Int) (alertId owner repo event : String) (recent : Int)
        (r : GRun) (hist : List HistEntry) (ts : Int),
        ghRunTs r = some ts → ts < now - recent * 60 * 1000 →
        processGitHubRun now alertId owner repo event recent r hist = ([], hist)) := by
  constructor
  · intro now alertId event recent jobName b hist h
    simp [processJenkinsBuild, h]
  · intro now alertId owner repo event recent r hist ts hts h
    simp [processGitHubRun, hts, h]

/-- Witness for C3's amended statement: a stale failing build produces
no dispatch and no history write. -/
theorem window_filter_lower_bound_witness :
    processJenkinsBuild 1700000000000 "a" "FAILURE" 180 "j"
        ⟨1, some "FAILURE", some 0, 1, none⟩ [] = ([], []) :=
  window_filter_lower_bound.1 1700000000000 "a" "FAILURE" 180 "j"
    ⟨1, some "FAILURE", some 0, 1, none⟩ [] (by decide)

/-- C5 counterexample: with `recentMinutes` absent the dedup lookback is
180 minutes, not 60.  The only identical history row is 90 minutes old
— outside a 60-minute lookback, as the last conjunct shows — yet the
evaluator suppresses the dispatch and writes nothing, because the value
it passes to the dedup query is `recentOf {} = 180`. -/
theorem dedup_default_window_cex :
    recentOf emptyConditions = 180 ∧
    processJenkinsBuild 1700000000000 "a1" (condEvent emptyConditions)
        (recentOf emptyConditions) "job"
        ⟨7, some "FAILURE", some 1700000000000, 1000, none⟩
        [⟨"a1", "SENT",
          jenkinsMessage "job" ⟨7, some "FAILURE", some 1700000000000, 1000, none⟩,
          1700000000000 - 90 * 60 * 1000⟩] =
      ([], [⟨"a1", "SENT",
          jenkinsMessage "job" ⟨7, some "FAILURE", some 1700000000000, 1000, none⟩,
          1700000000000 - 90 * 60 * 1000⟩]) ∧
    alreadySentRecently
        [⟨"a1", "SENT",
          jenkinsMessage "job" ⟨7, some "FAILURE", some 1700000000000, 1000, none⟩,
          1700000000000 - 90 * 60 * 1000⟩]
        1700000000000 "a1"
        (jenkinsMessage "job" ⟨7, some "FAILURE", some 1700000000000, 1000, none⟩)
        60 = false := by
  decide

/-- C5 (amended): the dedup lookback passed to the history query equals
the alert's `recentMinutes` when present and non-zero, and defaults to
180 minutes when absent (both evaluators pass `recentOf cond` — the same
value as the time window — to `alreadySentRecently`); for an in-window
matching build, suppression happens exactly when the dedup query over
that lookback finds an identical `(alertId, message)`. -/
theorem dedup_window_equals_recent :
    (∀ (c : Conditions) (v : Int), c.recentMinutes = some v → v ≠ 0 →
        recentOf c = v) ∧
    (∀ c : Conditions, c.recentMinutes = none → recentOf c = 180) ∧
    (∀ (now : Int) (alertId event : String) (recent : Int) (jobName : String)
        (b : JBuild) (hist : List HistEntry),
        now - recent * 60 * 1000 ≤ b.timestamp.getD now →
        jenkinsMatches event b = true →
        (processJenkinsBuild now alertId event recent jobName b hist = ([], hist) ↔
          alreadySentRecently hist now alertId (jenkinsMessage jobName b) recent =
            true)) := by
  refine ⟨?_, ?_, ?_⟩
  · intro c v hv hnz
    simp [recentOf, hv, hnz]
  · intro c hc
    simp [recentOf, hc]
  · intro now alertId event recent jobName b hist hwin hm
    have hcut : ¬ (b.timestamp.getD now < now - recent * 60 * 1000) :=
      not_lt.mpr hwin
    cases hd : alreadySentRecently hist now alertId (jenkinsMessage jobName b) recent
    · simp [processJenkinsBuild, hcut, hm, hd]
    · simp [processJenkinsBuild, hcut, hm, hd]

/-- Witness for C5's amended statement at concrete conditions. -/
theorem dedup_window_equals_recent_witness :
    recentOf ⟨none, none, none, some 120, none, none, none, none, none⟩ = 120 ∧
    recentOf emptyConditions = 180 ∧
    (processJenkinsBuild 0 "a" "FAILURE" 180 "j"
        ⟨1, some "FAILURE", some 0, 5, none⟩ [] = ([], []) ↔
      alreadySentRecently [] 0 "a"
        (jenkinsMessage "j" ⟨1, some "FAILURE", some 0, 5, none⟩) 180 = true) :=
  ⟨dedup_window_equals_recent.1 ⟨none, none, none, some 120, none, none, none,
      none, none⟩ 120 rfl (by decide),
   dedup_window_equals_recent.2.1 emptyConditions rfl,
   dedup_window_equals_recent.2.2 0 "a" "FAILURE" 180 "j"
     ⟨1, some "FAILURE", some 0, 5, none⟩ [] (by decide) (by decide)⟩

lemma runDurationSec_pos (r : GRun) (s e : Int) (hs : r.run_started_at = some s)
    (he : r.updated_at = some e) (h0 : 0 < s) (hlt : s < e)
    (hbig : 500 ≤ e - s) : 0 < runDurationSec r := by
  unfold runDurationSec
  rw [hs, he]
  simp only [Option.getD_some]
  rw [if_pos ⟨by omega, by omega, hlt⟩]
  unfold jsRoundNat
  exact lt_of_lt_of_le one_pos
    ((Nat.one_le_div_iff (by norm_num)).mpr (by omega))

/-- C8: on the primary fetch path (most recent runs, capped at 10), the
per-workflow summary reports success rate `round(100 × successes ÷
completed)` and average duration `round(mean of the completed runs'
rounded second durations)`, provided every completed run has a valid
duration of at least half a second (so none is dropped by the
positive-duration filter) and at least one completed run exists. -/
theorem workflow_summary_formula (runs : List GRun) (ncomp nsucc dsum : ℕ)
    (hcomp : ((runs.take 10).filter fun r => r.status == some "completed").length
      = ncomp)
    (hsucc : (((runs.take 10).filter fun r => r.status == some "completed").filter
        fun r => strToLower (r.conclusion.getD "") == "success").length = nsucc)
    (hsum : (((runs.take 10).filter fun r => r.status == some "completed").map
        runDurationSec).sum = dsum)
    (hdur : ∀ r ∈ (runs.take 10).filter fun r => r.status == some "completed",
        ∃ s e, r.run_started_at = some s ∧ r.updated_at = some e ∧
          0 < s ∧ s < e ∧ 500 ≤ e - s)
    (hne : ncomp ≠ 0) :
    workflowSummaryStats runs =
      (specRound ((100 * nsucc : ℚ) / ncomp), specRound ((dsum : ℚ) / ncomp)) := by
  simp only [workflowSummaryStats, workflowStats]
  have hpos : ∀ n ∈ ((runs.take 10).filter fun r =>
      r.status == some "completed").map runDurationSec, decide (0 < n) = true := by
    intro n hn
    obtain ⟨r, hr, rfl⟩ := List.mem_map.mp hn
    obtain ⟨s, e, hs, he, h0, hlt, hbig⟩ := hdur r hr
    simpa using runDurationSec_pos r s e hs he h0 hlt hbig
  have hfil : (((runs.take 10).filter fun r =>
        r.status == some "completed").map runDurationSec).filter
        (fun n => decide (0 < n)) =
      ((runs.take 10).filter fun r => r.status == some "completed").map
        runDurationSec :=
    List.filter_eq_self.mpr hpos
  rw [hfil, List.length_map, hcomp, hsucc, hsum]
  rw [if_neg hne, if_neg hne]
  have hb : 0 < ncomp := Nat.pos_of_ne_zero hne
  rw [jsRoundNat_eq_specRound _ _ hb, jsRoundNat_eq_specRound _ _ hb]
  push_cast
  rfl

/-- Witness for C8 at the spec's example: three completed runs with
durations 30 s, 60 s and 90 s, two of them successful, give success rate
`round(100·2/3) = 67` and average duration `round(180/3) = 60`. -/
theorem workflow_summary_formula_witness :
    workflowSummaryStats
        [⟨1, some "completed", some "success", some 1000, some 31000, none, none, none⟩,
         ⟨2, some "completed", some "success", some 1000, some 61000, none, none, none⟩,
         ⟨3, some "completed", some "failure", some 1000, some 91000, none, none, none⟩] =
      (specRound ((100 * 2 : ℚ) / 3), specRound ((180 : ℚ) / 3)) ∧
    specRound ((100 * 2 : ℚ) / 3) = 67 ∧ specRound ((180 : ℚ) / 3) = 60 := by
  refine ⟨?_, ?_, ?_⟩
  · have h := workflow_summary_formula
      [⟨1, some "completed", some "success", some 1000, some 31000, none, none, none⟩,
       ⟨2, some "completed", some "success", some 1000, some 61000, none, none, none⟩,
       ⟨3, some "completed", some "failure", some 1000, some 91000, none, none, none⟩]
      3 2 180 (by decide) (by decide) (by decide) ?_ (by decide)
    · simpa using h
    · intro r hr
      have hr' : r ∈
          [(⟨1, some "completed", some "success", some 1000, some 31000, none, none, none⟩ : GRun),
           ⟨2, some "completed", some "success", some 1000, some 61000, none, none, none⟩,
           ⟨3, some "completed", some "failure", some 1000, some 91000, none, none, none⟩] := by
        have hlist : (([⟨1, some "completed", some "success", some 1000, some 31000, none, none, none⟩,
            ⟨2, some "completed", some "success", some 1000, some 61000, none, none, none⟩,
            ⟨3, some "completed", some "failure", some 1000, some 91000, none, none, none⟩] :
              List GRun).take 10).filter (fun r => r.status == some "completed") =
            [⟨1, some "completed", some "success", some 1000, some 31000, none, none, none⟩,
             ⟨2, some "completed", some "success", some 1000, some 61000, none, none, none⟩,
             ⟨3, some "completed", some "failure", some 1000, some 91000, none, none, none⟩] := by
          decide
        rwa [hlist] at hr
      simp only [List.mem_cons, List.not_mem_nil, or_false] at hr'
      rcases hr' with h1 | h1 | h1 <;> subst h1
      · exact ⟨1000, 31000, rfl, rfl, by decide, by decide, by decide⟩
      · exact ⟨1000, 61000, rfl, rfl, by decide, by decide, by decide⟩
      · exact ⟨1000, 91000, rfl, rfl, by decide, by decide, by decide⟩
  · rw [specRound,
      show (100 * 2 : ℚ) / 3 + 1 / 2 = ((403 : ℕ) : ℚ) / ((6 : ℕ) : ℚ) by norm_num,
      Nat.floor_div_nat, Nat.floor_natCast]
  · rw [specRound,
      show (180 : ℚ) / 3 + 1 / 2 = ((121 : ℕ) : ℚ) / ((2 : ℕ) : ℚ) by norm_num,
      Nat.floor_div_nat, Nat.floor_natCast]

end CICD
